import Mathlib

/-!
Verification development for the sora-bot core: account pool
(`src/utils/db.py`, `src/utils/accounts.py`), remote generation protocol
client (`src/utils/sora_client.py`) and generation queue recovery
(`src/utils/generation_queue.py`), shallowly embedded in Lean.

Python string primitives are modelled by executable helpers below
(ASCII case folding for `str.lower`, space stripping for `str.strip`,
substring test for the `in` operator).  Numeric fields that are floats
in Python (poll timers, progress percentages) are modelled as `Int`:
the source only ever compares them, never does arithmetic on them.
-/

/-- ASCII lower-casing of one character, modelling `str.lower` on the
character set the source actually manipulates. -/
def lowerChar (c : Char) : Char :=
  if 'A' ≤ c ∧ c ≤ 'Z' then Char.ofNat (c.toNat + 32) else c

/-- Model of Python `str.lower()`. -/
def lowerStr (s : String) : String := ⟨s.data.map lowerChar⟩

/-- Model of Python `str.strip()` (space characters). -/
def stripStr (s : String) : String :=
  ⟨((s.data.dropWhile (fun c => c = ' ')).reverse.dropWhile (fun c => c = ' ')).reverse⟩

/-- Model of the Python `pat in hay` substring test. -/
def strHasSub (hay pat : String) : Bool :=
  (hay.data.tails).any (fun t => pat.data.isPrefixOf t)

/-- Python truthiness of an optional string (`None` and `""` are falsy). -/
def truthyS : Option String → Bool
  | none => false
  | some s => !(s = "")

/-- Python truthiness of an optional integer (`None` and `0` are falsy). -/
def truthyI : Option Int → Bool
  | none => false
  | some n => !(n = 0)

/-- One cookie object of a credential export: the JSON fields the code
reads (`name`, `value`, `domain`, `path`); each may be absent. -/
structure CookieRec where
  name : Option String
  value : Option String
  domain : Option String
  path : Option String
deriving DecidableEq, Repr

/-- A parsed credentials blob: the JSON array of cookie objects
(`cookies_json` after `json.loads`). -/
abbrev Blob := List CookieRec

/-- One row of the `accounts` table (src/utils/db.py `init_db`). -/
structure Account where
  id : Nat
  cookies_json : Blob
  account_key : Option String
  active_generations : Nat
  daily_generations : Nat
  last_used_at : Option String
  last_used_date : Option String
  disabled : Bool
deriving DecidableEq, Repr

/-- The accounts table plus the AUTOINCREMENT counter. -/
structure Pool where
  accounts : List Account
  nextId : Nat
deriving DecidableEq, Repr

/-- Model of db.reset_daily_where_needed: zero `daily_generations` and
advance `last_used_date` for every row whose stored date is non-null
and differs from today. -/
def resetOne (today : String) (a : Account) : Account :=
  if a.last_used_date ≠ none ∧ a.last_used_date ≠ some today then
    { a with daily_generations := 0, last_used_date := some today }
  else a

def reset_daily_where_needed (today : String) (p : Pool) : Pool :=
  ⟨p.accounts.map (resetOne today), p.nextId⟩

/-- The selection predicate of the acquiring query:
`disabled=0 AND daily_generations < dl AND active_generations < cl`. -/
def eligibleAcc (dl cl : Nat) (a : Account) : Bool :=
  !a.disabled && decide (a.daily_generations < dl) && decide (a.active_generations < cl)

/-- Model of db.list_accounts_counts: `(total, available_daily, available_slots)`. -/
def list_accounts_counts (dl cl : Nat) (p : Pool) : Nat × Nat × Nat :=
  (p.accounts.length,
   (p.accounts.filter (fun a => !a.disabled && decide (a.daily_generations < dl))).length,
   (p.accounts.filter (eligibleAcc dl cl)).length)

/-- Sort key of the acquiring query's ORDER BY clause:
`active_generations ASC, daily_generations ASC, last_used_at ASC NULLS FIRST, id ASC`,
as a lexicographic product. -/
abbrev AcctKey := Nat ×ₗ (Nat ×ₗ ((WithBot String) ×ₗ Nat))

/-- The `last_used_at ASC NULLS FIRST` component: null sorts below every string. -/
def lastUsedKey (a : Account) : WithBot String :=
  match a.last_used_at with
  | none => ⊥
  | some s => (s : WithBot String)

/-- Full ORDER BY key of one account row. -/
def acctSortKey (a : Account) : AcctKey :=
  toLex (a.active_generations, toLex (a.daily_generations, toLex (lastUsedKey a, a.id)))

/-- The row `ORDER BY ... LIMIT 1` returns: the key-minimal element
(first one on ties, which cannot occur for distinct ids). -/
def selectMinBy : List Account → Option Account
  | [] => none
  | a :: rest =>
    match selectMinBy rest with
    | none => some a
    | some b => if acctSortKey a ≤ acctSortKey b then some a else some b

/-- The row update applied by the acquiring transaction's UPDATE:
increment `active_generations`, stamp `last_used_at`/`last_used_date`. -/
def bumpAccount (now today : String) (a : Account) : Account :=
  { a with active_generations := a.active_generations + 1,
           last_used_at := some now, last_used_date := some today }

/-- Model of db.acquire_account_for_generation: one atomic transaction
that resets stale daily counters, selects the best eligible row, and
increments its active counter (the UPDATE re-checks the guard in its
WHERE clause and the transaction gives up unless exactly one row
changed).  The returned account mirrors the returned dict: the counters
as read, with `active_generations` already incremented. -/
def acquire_account_for_generation (today now : String) (dl cl : Nat) (p : Pool) :
    Option Account × Pool :=
  let p1 := reset_daily_where_needed today p
  match selectMinBy (p1.accounts.filter (eligibleAcc dl cl)) with
  | none => (none, p1)
  | some acc =>
    let updated := p1.accounts.map (fun b =>
      if b.id = acc.id && eligibleAcc dl cl b then bumpAccount now today b else b)
    let rowcount := (p1.accounts.filter (fun b => b.id = acc.id && eligibleAcc dl cl b)).length
    let p2 : Pool := ⟨updated, p1.nextId⟩
    if rowcount = 1 then
      (some { acc with active_generations := acc.active_generations + 1 }, p2)
    else
      (none, p2)

/-- accounts.DAILY_LIMIT. -/
def DAILY_LIMIT : Nat := 100

/-- accounts.CONCURRENCY_LIMIT. -/
def CONCURRENCY_LIMIT : Nat := 5

/-- Model of accounts.pick_account_for_generation.  The daily reset, the
count query, and the acquiring transaction are three separate database
transactions; `interf` is the interference of concurrent callers between
the count read and the acquire (identity for an isolated caller). -/
def pick_account_for_generation (today now : String) (p : Pool) (interf : Pool → Pool) :
    (Option Account × Option String) × Pool :=
  let p1 := reset_daily_where_needed today p
  let c := list_accounts_counts DAILY_LIMIT CONCURRENCY_LIMIT p1
  if c.1 = 0 then ((none, some "no_accounts"), p1)
  else if c.2.1 = 0 then ((none, some "daily_limit_all"), p1)
  else if c.2.2 = 0 then ((none, some "no_active_slots"), p1)
  else
    match acquire_account_for_generation today now DAILY_LIMIT CONCURRENCY_LIMIT (interf p1) with
    | (none, p2) => ((none, some "no_active_slots"), p2)
    | (some a, p2) => ((some a, none), p2)

/-- Look a row up by id (unique for a well-formed table). -/
def findById (l : List Account) (i : Nat) : Option Account :=
  l.find? (fun b => b.id = i)

/-- One canonicalized cookie: only name/value/domain/path kept, domain
and path lower-cased (missing domain becomes "", missing or empty path
becomes "/"). -/
structure CanonCookie where
  domain : String
  path : String
  name : String
  value : String
deriving DecidableEq, Repr

/-- Python tuple comparison on the sort key (domain, path, name). -/
def canonLe (x y : CanonCookie) : Bool :=
  if x.domain ≠ y.domain then decide (x.domain < y.domain)
  else if x.path ≠ y.path then decide (x.path < y.path)
  else decide (x.name ≤ y.name)

/-- Insert into a sorted list before the first element that is not
strictly smaller; folding this from the right is a stable sort, as
Python `list.sort` is. -/
def insSorted (x : CanonCookie) : List CanonCookie → List CanonCookie
  | [] => [x]
  | y :: ys => if canonLe x y then x :: y :: ys else y :: insSorted x ys

/-- Stable sort by (domain, path, name). -/
def sortCanon (l : List CanonCookie) : List CanonCookie :=
  l.foldr insSorted []

/-- Model of accounts._canonicalize_cookies: keep only cookies with a
name and a value, normalize domain ("" when missing) and path ("/" when
missing or empty) to lower case, and sort stably by (domain, path,
name).  The JSON dump with sorted keys and fixed separators is injective
on this data, so canonical equality is modelled as list equality. -/
def canonicalize_cookies (b : Blob) : List CanonCookie :=
  sortCanon (b.filterMap (fun c =>
    match c.name, c.value with
    | some n, some v =>
        some { domain := lowerStr (c.domain.getD ""),
               path := lowerStr (match c.path with
                                 | none => "/"
                                 | some q => if q = "" then "/" else q),
               name := n, value := v }
    | _, _ => none))

/-- The JWT payload claims accounts.add_account inspects, in preference
order email, user_id, userId, sub, uid (non-string values modelled as
absent). -/
structure JwtClaims where
  email : Option String
  user_id : Option String
  userId : Option String
  sub : Option String
  uid : Option String
deriving DecidableEq, Repr

/-- One candidate claim: kept when non-empty after strip; the email
claim is additionally lower-cased. -/
def pickClaim (isEmail : Bool) (v : Option String) : Option String :=
  match v with
  | none => none
  | some s =>
    if stripStr s = "" then none
    else some (if isEmail then lowerStr (stripStr s) else stripStr s)

/-- The stable key extracted from the decoded JWT payload. -/
def claimKey (j : JwtClaims) : Option String :=
  match pickClaim true j.email with
  | some k => some k
  | none =>
    match pickClaim false j.user_id with
    | some k => some k
    | none =>
      match pickClaim false j.userId with
      | some k => some k
      | none =>
        match pickClaim false j.sub with
        | some k => some k
        | none => pickClaim false j.uid

/-- Environment of add_account: the upstream authentication probe
(validate_cookies, raising on failure), the decoded JWT payload of the
returned token (_decode_jwt_payload, empty on failure), and the SHA-256
hex digest of the canonical JSON dump (abstract: the code only applies
it and compares the results). -/
structure AddEnv where
  validate : Blob → Except String String
  payload : String → JwtClaims
  hashCanon : List CanonCookie → String

/-- The failures add_account raises: ValueError for an invalid
credential, DuplicateAccountError for a duplicate. -/
inductive AddErr
  | invalidCredential (msg : String)
  | duplicateAccount (msg : String)
deriving DecidableEq, Repr

/-- Model of db.get_account_id_by_key. -/
def get_account_id_by_key (p : Pool) (k : String) : Option Nat :=
  (p.accounts.find? (fun a => a.account_key = some k)).map Account.id

/-- Model of db.add_account_row: INSERT with default counters, returning
the fresh AUTOINCREMENT id. -/
def add_account_row (cookies : Blob) (account_key : Option String) (p : Pool) : Nat × Pool :=
  (p.nextId,
   ⟨p.accounts ++ [⟨p.nextId, cookies, account_key, 0, 0, none, none, false⟩], p.nextId + 1⟩)

/-- Model of accounts.add_account: validate the credential upstream,
derive a stable account key (JWT claim, else hash of the canonical
cookie form), reject when the key already exists, reject when any
stored credential has the same canonical form, else insert. -/
def add_account (env : AddEnv) (p : Pool) (b : Blob) : Except AddErr Nat × Pool :=
  match env.validate b with
  | .error e => (.error (.invalidCredential e), p)
  | .ok token =>
    let account_key : Option String :=
      match claimKey (env.payload token) with
      | some k => some k
      | none => some ("cookiehash:" ++ env.hashCanon (canonicalize_cookies b))
    if (match account_key with
        | some k => (get_account_id_by_key p k).isSome
        | none => false) then
      (.error (.duplicateAccount "Account already exists in the database"), p)
    else if p.accounts.any (fun a =>
        decide (canonicalize_cookies a.cookies_json = canonicalize_cookies b)) then
      (.error (.duplicateAccount "Cookies already present in the database"), p)
    else
      let r := add_account_row b account_key p
      (.ok r.1, r.2)

/-- Progress payloads of the poll loop.  `fallback` is the bare
"status queued" event emitted when the pending feed has no entry for
the task; the other two mirror the queued/rendering payload dicts.  The
canonical JSON fingerprint (json.dumps with sorted keys) is injective
on these dicts — the three shapes have distinct key sets or status
values and the task id is constant within a run — so fingerprint
equality is modelled as equality of this type. -/
inductive ProgressPayload
  | fallback
  | queuedP (queue_position : Option Int) (eta_sec : Option Int) (message : Option String)
  | renderingP (progress_pct : Option Int) (message : Option String)
deriving DecidableEq, Repr

/-- The typed events a protocol-client run yields.  Fields that no
consumer logic inspects (details dicts, encodings payloads, the
repeated task_id) are omitted. -/
inductive Event
  | error (code : String) (message : Option String)
  | account (account_id : Int)
  | auth
  | uploaded (media_id : String)
  | queued (task_id : String) (priority : Option Int)
  | progress (payload : ProgressPayload)
  | draft_found (gen_id : String)
  | finished (gen_id : Option String) (url : Option String) (downloadable_url : Option String)
      (width : Option Int) (height : Option Int) (prompt : Option String)
deriving DecidableEq, Repr

/-- The fields of one pending-feed entry that _poll_generation reads
(progress percentages are scaled to integers; the code only compares
them to zero and embeds them in the fingerprint). -/
structure PendingItem where
  status : Option String
  progress_pct : Option Int
  progress_pos_in_queue : Option Int
  estimated_queue_wait_time : Option Int
  queue_status_message : Option String
  failure_reason : Option String
deriving DecidableEq, Repr

/-- The fields of one drafts-listing entry that _poll_generation reads;
`encodings` is the truthiness of the encodings value. -/
structure Draft where
  id : Option String
  task_id : Option String
  kind : Option String
  error_reason : Option String
  failure_reason : Option String
  reason : Option String
  reason_str : Option String
  message : Option String
  url : Option String
  encodings : Bool
  downloadable_url : Option String
  width : Option Int
  height : Option Int
  prompt : Option String
deriving DecidableEq, Repr

/-- The draft object of the v2 per-item detail endpoint. -/
structure DraftDetail where
  url : Option String
  downloadable_url : Option String
  width : Option Int
  height : Option Int
  prompt : Option String
deriving DecidableEq, Repr

/-- Outcome of the drafts-listing fetch of one cycle. -/
inductive DraftsFetch
  | ok (items : List Draft)
  | status401
  | errStatus (code : Option String) (message : Option String)
  | exn (msg : String)
deriving DecidableEq, Repr

/-- Outcome of the optional v2 detail fetch: success, a non-200 status
(the code falls back to the summary record), or a raised request. -/
inductive V2Fetch
  | ok (d : DraftDetail)
  | fail
  | exn (msg : String)
deriving DecidableEq, Repr

/-- What one poll cycle observes: the elapsed seconds at the cycle
start, the pending feed (every failure mode of that guarded fetch
collapses to `none`), the drafts listing, and the v2 detail outcome
should that fetch be reached. -/
structure CycleInput where
  elapsed : Int
  pending : Option PendingItem
  drafts : DraftsFetch
  v2 : V2Fetch
deriving DecidableEq, Repr

/-- The per-run polling parameters. -/
structure PollCfg where
  task_id : String
  timeout_sec : Int
deriving DecidableEq, Repr

/-- The loop-carried state of _poll_generation. -/
structure PollSt where
  found_gen_id : Option String
  last_progress_key : Option ProgressPayload
deriving DecidableEq, Repr

/-- How one poll cycle ended: the loop returned, an unguarded request
raised, or the loop continues with a new state. -/
inductive PollStepOut
  | terminal (events : List Event)
  | raised (events : List Event) (msg : String)
  | next (events : List Event) (st : PollSt)
deriving DecidableEq, Repr

/-- The upstream HTTP endpoints a run can call. -/
inductive UpCall
  | authSession
  | upload
  | create
  | pending
  | drafts
  | draftDetail
deriving DecidableEq, Repr

/-- Python `a or dflt` for an optional string against a default. -/
def strOr (a : Option String) (dflt : String) : String :=
  if truthyS a then a.getD "" else dflt

/-- Python `a or b` on optional strings (truthiness). -/
def orT (a b : Option String) : Option String :=
  if truthyS a then a else b

/-- The lower-cased status of a pending item. -/
def pendStatus (it : PendingItem) : String := lowerStr (it.status.getD "")

/-- The pending feed reports failure: truthy failure_reason or a
terminal status. -/
def pendingFails (it : PendingItem) : Bool :=
  truthyS it.failure_reason ||
    (pendStatus it = "failed" || pendStatus it = "error" || pendStatus it = "canceled")

/-- Error code of a pending failure: `failure_reason or status or
"processing_error"`. -/
def pendingFailCode (it : PendingItem) : String :=
  if truthyS it.failure_reason then it.failure_reason.getD ""
  else if pendStatus it = "" then "processing_error"
  else pendStatus it

/-- The item counts as rendering: status outside queued/preprocessing,
or a positive numeric progress percentage. -/
def pendingIsRendering (it : PendingItem) : Bool :=
  (!(pendStatus it = "queued" || pendStatus it = "preprocessing")) ||
    (match it.progress_pct with
     | some q => decide (q > 0)
     | none => false)

/-- The progress payload one pending item produces. -/
def pendingPayload (it : PendingItem) : ProgressPayload :=
  if pendingIsRendering it then
    .renderingP it.progress_pct it.queue_status_message
  else
    .queuedP it.progress_pos_in_queue it.estimated_queue_wait_time it.queue_status_message

/-- The pending-feed phase of one cycle: terminal failure events, or
the progress events of this cycle together with the updated
fingerprint (only a changed payload is emitted and recorded; with no
pending item a bare queued event is emitted while no fingerprint exists
yet, without recording one). -/
def pendingPhase (st : PollSt) (pending : Option PendingItem) :
    Except (List Event) (List Event × Option ProgressPayload) :=
  match pending with
  | some it =>
    if pendingFails it then
      .error [.error (pendingFailCode it) (some ("Generation failed: " ++ pendingFailCode it))]
    else
      let pe := pendingPayload it
      if st.last_progress_key = some pe then .ok ([], st.last_progress_key)
      else .ok ([.progress pe], some pe)
  | none =>
    if st.last_progress_key = none then .ok ([.progress .fallback], st.last_progress_key)
    else .ok ([], st.last_progress_key)

/-- The first drafts entry whose task_id equals the polled task. -/
def findDraft (taskId : String) (items : List Draft) : Option Draft :=
  items.find? (fun it => it.task_id = some taskId)

/-- The draft carries both success fields (truthy url and encodings). -/
def draftSuccessFields (my : Draft) : Bool := truthyS my.url && my.encodings

/-- The second error condition on a draft: some failure-ish field is
truthy and the success fields are not both present. -/
def draftCond2 (my : Draft) : Bool :=
  (truthyS my.error_reason || truthyS my.failure_reason || truthyS my.reason ||
    truthyS my.reason_str) && !draftSuccessFields my

/-- The draft reports an error: an error-kind item, or a failure field
without the success fields. -/
def draftHasError (my : Draft) : Bool :=
  (my.kind = some "sora_error") || draftCond2 my

/-- The code value accumulated over the two error-detection branches. -/
def draftCodeVal (my : Draft) : Option String :=
  let c1 := if my.kind = some "sora_error" then orT my.error_reason my.reason else none
  if draftCond2 my then orT c1 (orT my.error_reason (orT my.failure_reason my.reason)) else c1

/-- The message value accumulated over the two error-detection branches. -/
def draftMsgVal (my : Draft) : Option String :=
  let m1 := if my.kind = some "sora_error" then orT my.reason_str my.message else none
  if draftCond2 my then orT m1 (orT my.reason_str my.message) else m1

/-- The error event an error draft yields. -/
def draftErrorEvent (my : Draft) : Event :=
  let reason := strOr (draftCodeVal my) "processing_error"
  .error reason
    (some (if truthyS (draftMsgVal my) then
        "Generation failed: " ++ (draftMsgVal my).getD ""
      else "Generation failed: " ++ reason))

/-- The finished event built from the v2 detail record. -/
def finishedEventOfDetail (gid : Option String) (d : DraftDetail) : Event :=
  .finished gid d.url d.downloadable_url d.width d.height d.prompt

/-- The finished event built from the drafts summary record. -/
def finishedEventOfDraft (gid : Option String) (my : Draft) : Event :=
  .finished gid my.url my.downloadable_url my.width my.height my.prompt

/-- Whether this cycle first discovers the work item (gen id) in the
drafts listing. -/
def draftFoundNew (st : PollSt) (my : Draft) : Bool :=
  !truthyS st.found_gen_id && truthyS my.id

/-- The found_gen_id value after inspecting this draft. -/
def draftGid (st : PollSt) (my : Draft) : Option String :=
  if draftFoundNew st my then my.id else st.found_gen_id

/-- The draft_found event of this cycle, when newly discovered. -/
def draftDevs (st : PollSt) (my : Draft) : List Event :=
  if draftFoundNew st my then [Event.draft_found (my.id.getD "")] else []

/-- The drafts-listing phase of one poll cycle: the 401 / error-status
terminals, the draft lookup, the error-draft terminal, the finished
terminal (with the optional v2 detail enrichment), or the continuing
state; events listed without the pending-phase prefix. -/
def draftsPhase (st : PollSt) (lk : Option ProgressPayload) (taskId : String)
    (drafts : DraftsFetch) (v2 : V2Fetch) : List UpCall × PollStepOut :=
  match drafts with
  | .exn m => ([.pending, .drafts], .raised [] m)
  | .status401 =>
    ([.pending, .drafts],
     .terminal [.error "auth_expired" (some "Authentication expired while polling")])
  | .errStatus code message =>
    ([.pending, .drafts], .terminal [.error (strOr code "poll_failed") message])
  | .ok items =>
    match findDraft taskId items with
    | none => ([.pending, .drafts], .next [] ⟨st.found_gen_id, lk⟩)
    | some my =>
      if draftHasError my then
        ([.pending, .drafts], .terminal (draftDevs st my ++ [draftErrorEvent my]))
      else if truthyS my.url && my.encodings then
        if truthyS (draftGid st my) then
          match v2 with
          | .ok d =>
            ([.pending, .drafts, .draftDetail],
             .terminal (draftDevs st my ++ [finishedEventOfDetail (draftGid st my) d]))
          | .fail =>
            ([.pending, .drafts, .draftDetail],
             .terminal (draftDevs st my ++ [finishedEventOfDraft (draftGid st my) my]))
          | .exn m => ([.pending, .drafts, .draftDetail], .raised (draftDevs st my) m)
        else
          ([.pending, .drafts],
           .terminal (draftDevs st my ++ [finishedEventOfDraft (draftGid st my) my]))
      else
        ([.pending, .drafts], .next (draftDevs st my) ⟨draftGid st my, lk⟩)

/-- Prefix the pending-phase events onto a cycle outcome. -/
def prependEvents (evs : List Event) : PollStepOut → PollStepOut
  | .terminal e => .terminal (evs ++ e)
  | .raised e m => .raised (evs ++ e) m
  | .next e st => .next (evs ++ e) st

/-- One cycle of sora_client._poll_generation: the timeout check at the
cycle start, then the pending feed, then the drafts listing with its
terminal detection; returns the upstream calls issued and the outcome. -/
def pollStep (cfg : PollCfg) (st : PollSt) (c : CycleInput) : List UpCall × PollStepOut :=
  if cfg.timeout_sec > 0 ∧ c.elapsed > cfg.timeout_sec then
    ([], .terminal [.error "timeout" (some "Generation timed out")])
  else
    match pendingPhase st c.pending with
    | .error evs => ([.pending], .terminal evs)
    | .ok (pevs, lk) =>
      let d := draftsPhase st lk cfg.task_id c.drafts c.v2
      (d.1, prependEvents pevs d.2)

/-- How a finite poll script ends. -/
inductive PollOutcome
  | terminated
  | raised (msg : String)
  | exhausted
deriving DecidableEq, Repr

/-- Fold pollStep over a script of cycles, collecting events and calls. -/
def pollRun (cfg : PollCfg) : PollSt → List CycleInput → List Event × List UpCall × PollOutcome
  | _, [] => ([], [], .exhausted)
  | st, c :: rest =>
    match pollStep cfg st c with
    | (calls, .terminal evs) => (evs, calls, .terminated)
    | (calls, .raised evs m) => (evs, calls, .raised m)
    | (calls, .next evs st') =>
      let r := pollRun cfg st' rest
      (evs ++ r.1, calls ++ r.2.1, r.2.2)

/-- The pool-accounting side effects a protocol run performs. -/
inductive PoolEff
  | markFinished (id : Nat)
  | markCreated (id : Nat)
  | markDailyExhausted (id : Nat)
deriving DecidableEq, Repr

/-- Syntax tree of one generator run: yields, pool effects, a raised
exception, and a try/finally region, capturing the Python generator
protocol including GeneratorExit cleanup. -/
inductive GTree
  | done
  | raiseExn (msg : String)
  | eff (e : PoolEff) (rest : GTree)
  | yld (e : Event) (rest : GTree)
  | protect (body : GTree) (cleanup : List PoolEff)
deriving DecidableEq, Repr

/-- The events of a full (never closed early) run. -/
def GTree.events : GTree → List Event
  | .done => []
  | .raiseExn _ => []
  | .eff _ r => r.events
  | .yld e r => e :: r.events
  | .protect b _ => b.events

/-- The pool effects of a full run (a raise skips the remainder but
every enclosing finally still runs). -/
def GTree.effs : GTree → List PoolEff
  | .done => []
  | .raiseExn _ => []
  | .eff e r => e :: r.effs
  | .yld _ r => r.effs
  | .protect b c => b.effs ++ c

/-- The pool effects executed when the consumer closes the generator
after consuming n events: GeneratorExit is raised at the n-th yield, so
effects before that yield plus every enclosing finally run; n = 0 means
the generator body never started. -/
def GTree.runUpTo : GTree → Nat → List PoolEff
  | _, 0 => []
  | .done, _ + 1 => []
  | .raiseExn _, _ + 1 => []
  | .eff e r, n + 1 => e :: r.runUpTo (n + 1)
  | .yld _ r, n + 1 => if n = 0 then [] else r.runUpTo n
  | .protect b c, n + 1 => b.runUpTo (n + 1) ++ c

/-- Chain a list of yields in front of a tree. -/
def yldList (evs : List Event) (rest : GTree) : GTree :=
  evs.foldr .yld rest

/-- The polling loop as a generator-tree fragment. -/
def pollGTree (cfg : PollCfg) : PollSt → List CycleInput → GTree
  | _, [] => .done
  | st, c :: rest =>
    match pollStep cfg st c with
    | (_, .terminal evs) => yldList evs .done
    | (_, .raised evs m) => yldList evs (.raiseExn m)
    | (_, .next evs st') => yldList evs (pollGTree cfg st' rest)

/-- The arguments of generate_video (prompt `none` models a non-string
value; `image` records whether input-image bytes were provided). -/
structure GenArgs where
  prompt : Option String
  orientation : Option String
  image : Bool
  frames : Int
  size : Option String
  poll_interval_sec : Int
  timeout_sec : Int
deriving DecidableEq, Repr

/-- Outcome of the upload POST: parsed 200 response with its optional
media id, an HTTP error (status, parsed code, parsed message), or a
raised request/parse — all inside the guarded upload block. -/
inductive UploadRes
  | ok200 (media_id : Option String)
  | httpErr (status : Int) (code : Option String) (message : Option String)
  | exn (msg : String)
deriving DecidableEq, Repr

/-- Outcome of the create POST: parsed 200 response with the optional
task id (`ci.get("id") or ci.get("task_id")`) and priority, an HTTP
error, or a raised request/parse — which in the source is NOT guarded
by any try block. -/
inductive CreateRes
  | ok200 (task_id : Option String) (priority : Option Int)
  | httpErr (status : Int) (code : Option String) (message : Option String)
  | exn (msg : String)
deriving DecidableEq, Repr

/-- The environment one generate_video run observes: whether the
deferred account-pool import machinery is available, the auth outcome,
the upload and create outcomes, and the poll-cycle script. -/
structure GenEnv where
  poolOk : Bool
  auth : Except String Unit
  upload : UploadRes
  createR : CreateRes
  cycles : List CycleInput

/-- The initial error code of a failed create: `err.get("code") or
"create_failed"`, then the (vacuous, kept as written) 429 refinement. -/
def createErrCode0 (status : Int) (code : Option String) : String :=
  let c := strOr code "create_failed"
  if status = 429 then (if c = "" then "rate_limit" else c) else c

/-- The code/message of a failed create after the well-known-message
remapping (Russian UX texts) and the daily-limit detection heuristics. -/
def createRemap (status : Int) (code0 : Option String) (message0 : Option String) :
    String × Option String :=
  let code := createErrCode0 status code0
  let msg := message0.getD ""
  let hit5 := strHasSub msg "You already have 5 generations in progress"
  let errCode1 := if hit5 then some "concurrency_limit" else code0
  let errMsg1 :=
    if hit5 then some "Нет свободных аккаунтов. Подождите пару минут и попробуйте снова"
    else message0
  let hit100 := strHasSub msg "You've already generated 100 videos in the last day"
  let errCode2 := if hit100 then some "daily_limit" else errCode1
  let errMsg2 := if hit100 then some "Нет свободных аккаунтов. Попробуйте позже" else errMsg1
  let codeOut := strOr errCode2 code
  let msgLc := lowerStr (errMsg2.getD "")
  let isDaily := strHasSub (lowerStr (errCode2.getD "")) "daily_limit" ||
    ((strHasSub msgLc "submitted" || strHasSub msgLc "generated") && strHasSub msgLc "100" &&
      (strHasSub msgLc "24 hours" || strHasSub msgLc "last day" || strHasSub msgLc "last 24 hours"))
  if isDaily then ("daily_limit", errMsg2) else (codeOut, errMsg2)

/-- The create step and everything after it. -/
def genCreate (a : GenArgs) (env : GenEnv) (accId : Nat) : GTree :=
  match env.createR with
  | .exn m => .raiseExn m
  | .httpErr status code message =>
    let r := createRemap status code message
    let tail : GTree := .eff (.markFinished accId) (.yld (.error r.1 r.2) .done)
    if r.1 = "daily_limit" then .eff (.markDailyExhausted accId) tail else tail
  | .ok200 tid prio =>
    if truthyS tid then
      .eff (.markCreated accId)
        (.yld (.queued (tid.getD "") prio)
          (.protect (pollGTree ⟨tid.getD "", a.timeout_sec⟩ ⟨none, none⟩ env.cycles)
            [.markFinished accId]))
    else
      .eff (.markFinished accId)
        (.yld (.error "missing_task_id" (some "Unexpected create response")) .done)

/-- The optional upload step and everything after it. -/
def genAfterAuth (a : GenArgs) (env : GenEnv) (accId : Nat) : GTree :=
  if a.image then
    match env.upload with
    | .httpErr status code message =>
      let mlc := lowerStr (message.getD "")
      let c0 := strOr code "upload_failed"
      let c :=
        if status = 400 && (strHasSub mlc "face" || strHasSub mlc "person" ||
            strHasSub mlc "people" || strHasSub mlc "invalid image") then
          "invalid_start_image"
        else c0
      .eff (.markFinished accId) (.yld (.error c message) .done)
    | .ok200 mid =>
      if truthyS mid then .yld (.uploaded (mid.getD "")) (genCreate a env accId)
      else
        .eff (.markFinished accId)
          (.yld (.error "upload_missing_id" (some "Upload succeeded but no media id returned")) .done)
    | .exn m => .eff (.markFinished accId) (.yld (.error "upload_exception" (some m)) .done)
  else genCreate a env accId

/-- The authentication step and everything after it (auth failure frees
the slot immediately and ends the run). -/
def genAfterAccount (a : GenArgs) (env : GenEnv) (accId : Nat) : GTree :=
  match env.auth with
  | .error m => .eff (.markFinished accId) (.yld (.error "auth_failed" (some m)) .done)
  | .ok _ => .yld .auth (genAfterAuth a env accId)

/-- Result of starting a generate_video run: a ValueError raised on the
first iteration (pool untouched), or the pool after the account
selection step plus the generator tree of everything after it. -/
inductive GVResult
  | valueError (msg : String) (p : Pool)
  | run (p : Pool) (t : GTree)
deriving DecidableEq

/-- Model of sora_client.generate_video: validate the arguments, pick
and reserve an account from the pool (sequential semantics: identity
interference), then authenticate, optionally upload, create, and poll. -/
def generate_video (a : GenArgs) (env : GenEnv) (today now : String) (p : Pool) : GVResult :=
  if !(match a.prompt with | some s => !(s = "") | none => false) then
    .valueError "prompt is required and must be a string" p
  else if a.image = false ∧
      ¬(a.orientation = none ∨ a.orientation = some "portrait" ∨
        a.orientation = some "landscape") then
    .valueError "orientation must be 'portrait' or 'landscape' if provided" p
  else if a.frames ≤ 0 then
    .valueError "frames is required and must be a positive integer" p
  else if (match a.size with
           | some s => !(lowerStr s = "small") && !(lowerStr s = "large")
           | none => false) then
    .valueError "size must be 'small' or 'large'" p
  else if !env.poolOk then
    .run p (.yld (.error "accounts_not_configured" (some "Пул аккаунтов не настроен")) .done)
  else
    match pick_account_for_generation today now p (fun q => q) with
    | ((none, err), p1) =>
      if err = some "daily_limit_all" then
        .run p1 (.yld (.error "no_accounts_daily_limit"
          (some "Нет свободных аккаунтов. Попробуйте позже")) .done)
      else
        .run p1 (.yld (.error (err.getD "")
          (some (if err = some "no_active_slots" then
              "Нет свободных аккаунтов. Подождите пару минут и попробуйте снова"
            else "Нет свободных аккаунтов. Попробуйте позже"))) .done)
    | ((some acc, _), p1) =>
      .run p1 (.yld (.account (acc.id : Int)) (genAfterAccount a env acc.id))

/-- Pool state right after generate_video performed (or skipped) the
account-selection step. -/
def gvPoolAfterPick : GVResult → Pool
  | .valueError _ q => q
  | .run q _ => q

/-- How many times a run executes mark_generation_finished for an
account: over the full run, or when the consumer closes the generator
after n events. -/
def gvFinishedCount (accId : Nat) (r : GVResult) (closeAfter : Option Nat) : Nat :=
  match r with
  | .valueError _ _ => 0
  | .run _ t =>
    match closeAfter with
    | some n => (t.runUpTo n).count (.markFinished accId)
    | none => t.effs.count (.markFinished accId)

/-- Whether a run's full event sequence contains an account event. -/
def isAccountEvent : Event → Bool
  | .account _ => true
  | _ => false

/-- The full event sequence of a run (empty for a ValueError). -/
def gvEvents : GVResult → List Event
  | .valueError _ _ => []
  | .run _ t => t.events

/-- The environment one resume_generation run observes: the stored
cookies of the account row (none when the row is missing or the lookup
raised), the auth outcome, and the poll-cycle script. -/
structure ResumeEnv where
  creds_cookies : Option String
  auth : Except String Unit
  cycles : List CycleInput

/-- Result of resume_generation: a ValueError raised up front, or the
events yielded, the upstream calls issued, and the pool effects run. -/
inductive ResumeResult
  | valueError (msg : String)
  | run (events : List Event) (calls : List UpCall) (effs : List PoolEff)
deriving DecidableEq, Repr

/-- Model of sora_client.resume_generation: re-authenticate with the
stored credential and re-enter the polling loop on the recorded
task_id; no creation request exists on this path.  The finally block
always releases the slot once the credential was found. -/
def resume_generation (task_id : String) (account_id : Int) (timeout_sec : Int)
    (env : ResumeEnv) : ResumeResult :=
  if task_id = "" then .valueError "task_id is required for resume_generation"
  else if account_id ≤ 0 then
    .valueError "account_id must be a positive integer for resume_generation"
  else if !truthyS env.creds_cookies then
    .run [.error "account_missing" (some "Аккаунт недоступен для продолжения генерации")] [] []
  else
    match env.auth with
    | .error m =>
      .run [.account account_id, .error "resume_failed" (some m)] [.authSession]
        [.markFinished account_id.toNat]
    | .ok _ =>
      let pr := pollRun ⟨task_id, timeout_sec⟩ ⟨none, none⟩ env.cycles
      match pr.2.2 with
      | .raised m =>
        .run ([.account account_id, .auth] ++ pr.1 ++ [.error "resume_failed" (some m)])
          (.authSession :: pr.2.1) [.markFinished account_id.toNat]
      | _ =>
        .run ([.account account_id, .auth] ++ pr.1) (.authSession :: pr.2.1)
          [.markFinished account_id.toNat]

/-- The upstream calls of a resume run. -/
def resumeCalls : ResumeResult → List UpCall
  | .valueError _ => []
  | .run _ calls _ => calls

/-- The events of a resume run. -/
def resumeEvents : ResumeResult → List Event
  | .valueError _ => []
  | .run evs _ _ => evs

/-- One generation_jobs row, restricted to the fields crash recovery
reads and writes. -/
structure Job where
  id : Nat
  status : String
  task_id : Option String
  account_id : Option Int
  progress : Option Int
  last_event : Option String
deriving DecidableEq, Repr

/-- What recovery does with one running job: start its task on the
resume path, or write the requeued row back and set the wake event
(notify_new_job). -/
inductive RecAction
  | resume (job_id : Nat) (task_id : String) (account_id : Int)
  | requeue (updated : Job)
deriving DecidableEq, Repr

/-- The per-job decision of GenerationQueue._recover_running_jobs:
Python truthiness on task_id and account_id decides between resuming
and requeueing. -/
def recoverJob (j : Job) : RecAction :=
  if truthyS j.task_id && truthyI j.account_id then
    .resume j.id (j.task_id.getD "") (j.account_id.getD 0)
  else
    .requeue ⟨j.id, "queued", none, none, none, some "requeued"⟩

/-- Model of GenerationQueue._recover_running_jobs over the jobs table:
inspect every job in status running. -/
def recover_running_jobs (table : List Job) : List RecAction :=
  (table.filter (fun j => j.status = "running")).map recoverJob

/-- Environment of one authenticated HTTP call of
_AsyncBrowserSession: the status of the first response, the outcome of
the forced token refresh attempted after a 401, and the outcome of the
reissued request. -/
structure HttpCallEnv where
  first_status : Int
  refresh : Except String Unit
  retry : Except String Int

/-- The shared 401-retry logic of get_json / post_json /
post_multipart: on an unauthorized first response, force-refresh the
token and reissue the request once; an exception anywhere in that block
is swallowed and the original response kept.  Returns the final status
and how many times the request was issued. -/
def requestWithAuthRetry (e : HttpCallEnv) : Int × Nat :=
  if e.first_status = 401 then
    match e.refresh with
    | .error _ => (e.first_status, 1)
    | .ok _ =>
      match e.retry with
      | .error _ => (e.first_status, 2)
      | .ok s2 => (s2, 2)
  else (e.first_status, 1)

/-- Model of _AsyncBrowserSession.get_json. -/
def get_json (e : HttpCallEnv) : Int × Nat := requestWithAuthRetry e

/-- Model of _AsyncBrowserSession.post_json (same retry structure). -/
def post_json (e : HttpCallEnv) : Int × Nat := requestWithAuthRetry e

/-- Whether a refresh attempt succeeded. -/
def refreshOk : Except String Unit → Bool
  | .ok _ => true
  | .error _ => false

/-- The progress events among a list of events. -/
def progressEvents (evs : List Event) : List Event :=
  evs.filter (fun e => match e with | .progress _ => true | _ => false)

/-- The events of a poll-step outcome. -/
def stepEvents : PollStepOut → List Event
  | .terminal evs => evs
  | .raised evs _ => evs
  | .next evs _ => evs

/-- The continuation state of a poll-step outcome, when the loop
continues. -/
def stepNextSt : PollStepOut → Option PollSt
  | .next _ st => some st
  | _ => none

theorem selectMinBy_mem (l : List Account) :
    ∀ {a : Account}, selectMinBy l = some a → a ∈ l := by
  induction l with
  | nil => intro a h; simp [selectMinBy] at h
  | cons x rest ih =>
    intro a h
    simp only [selectMinBy] at h
    cases hrec : selectMinBy rest with
    | none =>
      simp only [hrec] at h
      have hax : x = a := Option.some.inj h
      subst hax
      exact List.mem_cons_self _ _
    | some b =>
      simp only [hrec] at h
      by_cases hle : acctSortKey x ≤ acctSortKey b
      · rw [if_pos hle] at h
        have hax : x = a := Option.some.inj h
        subst hax
        exact List.mem_cons_self _ _
      · rw [if_neg hle] at h
        have hab : b = a := Option.some.inj h
        subst hab
        exact List.mem_cons_of_mem _ (ih hrec)

theorem selectMinBy_isSome (x : Account) (rest : List Account) :
    (selectMinBy (x :: rest)).isSome := by
  simp only [selectMinBy]
  cases selectMinBy rest with
  | none => rfl
  | some b =>
    by_cases hle : acctSortKey x ≤ acctSortKey b
    · simp [hle]
    · simp [hle]

theorem selectMinBy_eq_none {l : List Account} :
    selectMinBy l = none ↔ l = [] := by
  cases l with
  | nil => simp [selectMinBy]
  | cons x rest =>
    constructor
    · intro h
      have hs := selectMinBy_isSome x rest
      rw [h] at hs
      simp at hs
    · intro h; simp at h

theorem selectMinBy_min (l : List Account) :
    ∀ {a : Account}, selectMinBy l = some a → ∀ b ∈ l, acctSortKey a ≤ acctSortKey b := by
  induction l with
  | nil => intro a h; simp [selectMinBy] at h
  | cons x rest ih =>
    intro a h
    simp only [selectMinBy] at h
    cases hrec : selectMinBy rest with
    | none =>
      simp only [hrec] at h
      have hrest : rest = [] := selectMinBy_eq_none.mp hrec
      have hax : x = a := Option.some.inj h
      subst hax; subst hrest
      intro b hb
      rcases List.mem_cons.mp hb with rfl | hb'
      · exact le_refl _
      · simp at hb'
    | some m =>
      simp only [hrec] at h
      by_cases hle : acctSortKey x ≤ acctSortKey m
      · rw [if_pos hle] at h
        have hax : x = a := Option.some.inj h
        subst hax
        intro b hb
        rcases List.mem_cons.mp hb with rfl | hb'
        · exact le_refl _
        · exact le_trans hle (ih hrec b hb')
      · rw [if_neg hle] at h
        have ham : m = a := Option.some.inj h
        subst ham
        intro b hb
        rcases List.mem_cons.mp hb with rfl | hb'
        · exact le_of_not_le hle
        · exact ih hrec b hb'

theorem findById_map (f : Account → Account) (hf : ∀ b, (f b).id = b.id)
    (l : List Account) (i : Nat) :
    findById (l.map f) i = (findById l i).map f := by
  have hp : ((fun b => decide (b.id = i)) ∘ f) = (fun b => decide (b.id = i)) := by
    funext b; simp [hf]
  simp [findById, List.find?_map, hp]

theorem mem_id_unique {l : List Account} (hnd : (l.map Account.id).Nodup)
    {b c : Account} (hb : b ∈ l) (hc : c ∈ l) (h : b.id = c.id) : b = c := by
  induction l with
  | nil => simp at hb
  | cons x xs ih =>
    simp only [List.map_cons, List.nodup_cons] at hnd
    rcases List.mem_cons.mp hb with rfl | hb' <;> rcases List.mem_cons.mp hc with rfl | hc'
    · rfl
    · exact absurd (h ▸ List.mem_map_of_mem Account.id hc') hnd.1
    · exact absurd (h ▸ List.mem_map_of_mem Account.id hb') hnd.1
    · exact ih hnd.2 hb' hc'

theorem findById_eq_some_of_mem {l : List Account}
    (hnd : (l.map Account.id).Nodup) {a : Account} (ha : a ∈ l) :
    findById l a.id = some a := by
  induction l with
  | nil => simp at ha
  | cons x xs ih =>
    simp only [List.map_cons, List.nodup_cons] at hnd
    rcases List.mem_cons.mp ha with rfl | ha'
    · exact List.find?_cons_of_pos _ (by simp)
    · have hne : x.id ≠ a.id := by
        intro hxa
        exact hnd.1 (hxa ▸ List.mem_map_of_mem Account.id ha')
      simp only [findById]
      rw [List.find?_cons_of_neg _ (by simp [hne])]
      exact ih hnd.2 ha'

theorem findById_mem {l : List Account} {i : Nat} {a : Account}
    (h : findById l i = some a) : a ∈ l :=
  List.mem_of_find?_eq_some h

theorem pick_success_shape (today now : String) (p : Pool) (interf : Pool → Pool)
    {acc : Account} {p' : Pool}
    (hpick : pick_account_for_generation today now p interf = ((some acc, none), p')) :
    ∃ sel ∈ (reset_daily_where_needed today (interf (reset_daily_where_needed today p))).accounts,
      eligibleAcc DAILY_LIMIT CONCURRENCY_LIMIT sel = true ∧
      acc = { sel with active_generations := sel.active_generations + 1 } ∧
      (∀ b ∈ (reset_daily_where_needed today (interf (reset_daily_where_needed today p))).accounts,
        eligibleAcc DAILY_LIMIT CONCURRENCY_LIMIT b = true → acctSortKey sel ≤ acctSortKey b) ∧
      p'.accounts = (reset_daily_where_needed today (interf (reset_daily_where_needed today p))).accounts.map
        (fun b => if b.id = sel.id && eligibleAcc DAILY_LIMIT CONCURRENCY_LIMIT b then
                    bumpAccount now today b else b) := by
  simp only [pick_account_for_generation] at hpick
  split at hpick
  · simp at hpick
  · split at hpick
    · simp at hpick
    · split at hpick
      · simp at hpick
      · split at hpick
        case _ p2 heq => simp at hpick
        case _ a p2 heq =>
          have ha : a = acc := by
            have h1 := congrArg (fun z => z.1.1) hpick
            simpa using h1
          have hp2 : p2 = p' := congrArg Prod.snd hpick
          rw [ha, hp2] at heq
          simp only [acquire_account_for_generation] at heq
          split at heq
          · simp at heq
          case _ sel hsel =>
            split at heq
            case isTrue hrc =>
              injection heq with h1 h2
              have hacc : acc = { sel with active_generations := sel.active_generations + 1 } :=
                (Option.some.inj h1).symm
              refine ⟨sel, ?_, ?_, hacc, ?_, ?_⟩
              · exact (List.mem_filter.mp (selectMinBy_mem _ hsel)).1
              · exact (List.mem_filter.mp (selectMinBy_mem _ hsel)).2
              · intro b hb helig
                exact selectMinBy_min _ hsel b (List.mem_filter.mpr ⟨hb, helig⟩)
              · rw [← h2]
            case isFalse hrc => simp at heq

theorem reset_accounts_map (today : String) (p : Pool) :
    (reset_daily_where_needed today p).accounts = p.accounts.map (resetOne today) := rfl

theorem resetOne_id (today : String) (a : Account) : (resetOne today a).id = a.id := by
  unfold resetOne; split <;> rfl

theorem resetOne_active (today : String) (a : Account) :
    (resetOne today a).active_generations = a.active_generations := by
  unfold resetOne; split <;> rfl

theorem map_accountId_of_pres {g : Account → Account} (hg : ∀ b, (g b).id = b.id)
    (l : List Account) : (l.map g).map Account.id = l.map Account.id := by
  induction l with
  | nil => rfl
  | cons x xs ih => simp [hg, ih]

/-- C1: a successful pick_account_for_generation returns an account that,
in the state read by the acquiring transaction, satisfies
`disabled = false AND daily_generations < DAILY_LIMIT AND
active_generations < CONCURRENCY_LIMIT`, is minimal for the ORDER BY key
(ascending active_generations, then daily_generations, then last_used_at
with nulls first, then id), and is exactly the row whose
active_generations the same transaction incremented; consequently, when
the account held its last free slot, an immediately following caller can
never reserve the same account again. -/
theorem pick_account_atomic_reservation
    (today now : String) (p : Pool) (interf : Pool → Pool) (acc : Account) (p' : Pool)
    (hnodup : (((reset_daily_where_needed today (interf (reset_daily_where_needed today p))).accounts).map Account.id).Nodup)
    (hpick : pick_account_for_generation today now p interf = ((some acc, none), p')) :
    ∃ sel ∈ (reset_daily_where_needed today (interf (reset_daily_where_needed today p))).accounts,
      sel.id = acc.id ∧
      (sel.disabled = false ∧ sel.daily_generations < DAILY_LIMIT ∧
        sel.active_generations < CONCURRENCY_LIMIT) ∧
      acc.active_generations = sel.active_generations + 1 ∧
      (∀ b ∈ (reset_daily_where_needed today (interf (reset_daily_where_needed today p))).accounts,
        eligibleAcc DAILY_LIMIT CONCURRENCY_LIMIT b = true → acctSortKey sel ≤ acctSortKey b) ∧
      findById p'.accounts sel.id = some (bumpAccount now today sel) ∧
      (sel.active_generations + 1 = CONCURRENCY_LIMIT →
        ∀ (acc2 : Account) (p'' : Pool),
          pick_account_for_generation today now p' (fun q => q) = ((some acc2, none), p'') →
          acc2.id ≠ acc.id) := by
  obtain ⟨sel, hmem, helig, hacc, hmin, hupd⟩ := pick_success_shape today now p interf hpick
  have hpred : sel.disabled = false ∧ sel.daily_generations < DAILY_LIMIT ∧
      sel.active_generations < CONCURRENCY_LIMIT := by
    have h0 : (sel.disabled = false ∧ sel.daily_generations < DAILY_LIMIT) ∧
        sel.active_generations < CONCURRENCY_LIMIT := by simpa [eligibleAcc] using helig
    exact ⟨h0.1.1, h0.1.2, h0.2⟩
  have hidpres : ∀ b : Account,
      ((fun b => if b.id = sel.id && eligibleAcc DAILY_LIMIT CONCURRENCY_LIMIT b then
          bumpAccount now today b else b) b).id = b.id := by
    intro b
    by_cases h : (b.id = sel.id && eligibleAcc DAILY_LIMIT CONCURRENCY_LIMIT b) = true
    · simp only [h, if_true]
      rfl
    · simp only [Bool.not_eq_true] at h
      simp [h]
  have hnd' : (p'.accounts.map Account.id).Nodup := by
    rw [hupd, map_accountId_of_pres hidpres]
    exact hnodup
  have hfind : findById p'.accounts sel.id = some (bumpAccount now today sel) := by
    rw [hupd, findById_map _ hidpres, findById_eq_some_of_mem hnodup hmem]
    simp [helig]
  refine ⟨sel, hmem, by rw [hacc], hpred, by rw [hacc], hmin, hfind, ?_⟩
  intro hlast acc2 p'' hpick2 heqid
  obtain ⟨sel2, hmem2, helig2, hacc2, -, -⟩ := pick_success_shape today now p' (fun q => q) hpick2
  have hid2 : sel2.id = sel.id := by
    have h1 : acc2.id = sel2.id := by rw [hacc2]
    have h2 : acc.id = sel.id := by rw [hacc]
    rw [← h1, ← h2, heqid]
  have hmem2' : sel2 ∈ ((p'.accounts.map (resetOne today)).map (resetOne today)) := by
    simpa [reset_daily_where_needed] using hmem2
  obtain ⟨y, hy, hy2⟩ := List.mem_map.mp hmem2'
  obtain ⟨m, hm, hm2⟩ := List.mem_map.mp hy
  have hmid : m.id = sel.id := by
    rw [← hid2, ← hy2, ← hm2, resetOne_id, resetOne_id]
  have hbmem : bumpAccount now today sel ∈ p'.accounts := findById_mem hfind
  have hmbump : m = bumpAccount now today sel := by
    refine mem_id_unique hnd' hm hbmem ?_
    rw [hmid]
    rfl
  have hact : sel2.active_generations = m.active_generations := by
    rw [← hy2, ← hm2, resetOne_active, resetOne_active]
  have hlt : sel2.active_generations < CONCURRENCY_LIMIT := by
    have h' : (sel2.disabled = false ∧ sel2.daily_generations < DAILY_LIMIT) ∧
        sel2.active_generations < CONCURRENCY_LIMIT := by simpa [eligibleAcc] using helig2
    exact h'.2
  rw [hact, hmbump] at hlt
  simp only [bumpAccount] at hlt
  omega

/-- Witness for C1: a one-account pool where the pick succeeds; the
selected row is the account with id 1. -/
theorem pick_account_atomic_reservation_witness :
    ∃ sel ∈ (reset_daily_where_needed "2026-10-12"
        ((fun q => q) (reset_daily_where_needed "2026-10-12"
          (⟨[⟨1, [], none, 0, 0, none, none, false⟩], 2⟩ : Pool)))).accounts,
      sel.id = 1 := by
  obtain ⟨sel, hmem, hid, -⟩ :=
    pick_account_atomic_reservation "2026-10-12" "2026-10-12T00:00:00" 
      (⟨[⟨1, [], none, 0, 0, none, none, false⟩], 2⟩ : Pool) (fun q => q)
      (⟨1, [], none, 1, 0, none, none, false⟩ : Account)
      (⟨[⟨1, [], none, 1, 0, some "2026-10-12T00:00:00", some "2026-10-12", false⟩], 2⟩ : Pool)
      (by decide) (by decide)
  exact ⟨sel, hmem, hid⟩

/-- C6 (amended): when pick_account_for_generation fails, the reason is
`no_accounts` exactly when the pool is empty; `daily_limit_all` exactly
when accounts exist but every NON-DISABLED account is at its daily cap
(disabled accounts are not counted as available even when under cap);
and `no_active_slots` exactly when some non-disabled account is under
its daily cap but either no non-disabled under-cap account has a free
concurrency slot or the atomic acquire on the (possibly concurrently
modified) state returned nothing — the race-loss case. -/
theorem pick_failure_reason_characterization
    (today now : String) (p : Pool) (interf : Pool → Pool) (r : String) (p' : Pool)
    (hfail : pick_account_for_generation today now p interf = ((none, some r), p')) :
    (r = "no_accounts" ↔ p.accounts = []) ∧
    (r = "daily_limit_all" ↔ p.accounts ≠ [] ∧
      ∀ a ∈ (reset_daily_where_needed today p).accounts,
        a.disabled = true ∨ ¬a.daily_generations < DAILY_LIMIT) ∧
    (r = "no_active_slots" ↔
      (∃ a ∈ (reset_daily_where_needed today p).accounts,
        a.disabled = false ∧ a.daily_generations < DAILY_LIMIT) ∧
      ((∀ a ∈ (reset_daily_where_needed today p).accounts,
          ¬(a.disabled = false ∧ a.daily_generations < DAILY_LIMIT ∧
            a.active_generations < CONCURRENCY_LIMIT)) ∨
        (acquire_account_for_generation today now DAILY_LIMIT CONCURRENCY_LIMIT
          (interf (reset_daily_where_needed today p))).1 = none)) := by
  have hlen : (reset_daily_where_needed today p).accounts.length = p.accounts.length := by
    simp [reset_daily_where_needed]
  have hlen' : (reset_daily_where_needed today p).accounts = [] ↔ p.accounts = [] := by
    rw [← List.length_eq_zero, ← List.length_eq_zero, hlen]
  simp only [pick_account_for_generation] at hfail
  split at hfail
  case isTrue hc1 =>
    have hr : r = "no_accounts" := by
      have := congrArg (fun z => z.1.2) hfail
      simpa using this.symm
    subst hr
    have hempty : p.accounts = [] :=
      hlen'.mp (List.length_eq_zero.mp hc1)
    refine ⟨iff_of_true rfl hempty, ?_, ?_⟩
    · refine iff_of_false (by decide) ?_
      rintro ⟨hne, -⟩
      exact hne hempty
    · refine iff_of_false (by decide) ?_
      rintro ⟨⟨a, ha, -⟩, -⟩
      rw [hlen'.mpr hempty] at ha
      simp at ha
  case isFalse hc1 =>
    split at hfail
    case isTrue hc2 =>
      have hr : r = "daily_limit_all" := by
        have := congrArg (fun z => z.1.2) hfail
        simpa using this.symm
      subst hr
      have hne : p.accounts ≠ [] := by
        intro h
        exact hc1 (by simp [list_accounts_counts, hlen'.mpr h])
      have hall : ∀ a ∈ (reset_daily_where_needed today p).accounts,
          a.disabled = true ∨ ¬a.daily_generations < DAILY_LIMIT := by
        intro a ha
        have hnil := List.length_eq_zero.mp hc2
        have := List.filter_eq_nil_iff.mp hnil a ha
        by_cases hd : a.disabled
        · exact Or.inl hd
        · right
          intro hdl
          exact this (by simp [hd, hdl])
      refine ⟨iff_of_false (by decide) ?_, iff_of_true rfl ⟨hne, hall⟩, iff_of_false (by decide) ?_⟩
      · rintro hempty
        exact hne hempty
      · rintro ⟨⟨a, ha, hdis, hdl⟩, -⟩
        rcases hall a ha with h | h
        · rw [hdis] at h; exact Bool.false_ne_true h
        · exact h hdl
    case isFalse hc2 =>
      have hex : ∃ a ∈ (reset_daily_where_needed today p).accounts,
          a.disabled = false ∧ a.daily_generations < DAILY_LIMIT := by
        have hpos : (reset_daily_where_needed today p).accounts.filter
            (fun a => !a.disabled && decide (a.daily_generations < DAILY_LIMIT)) ≠ [] := by
          intro h
          exact hc2 (by simp [list_accounts_counts, h])
        obtain ⟨a, ha⟩ := List.exists_mem_of_ne_nil _ hpos
        have := List.mem_filter.mp ha
        refine ⟨a, this.1, ?_, ?_⟩
        · have h2 := this.2
          simp at h2
          exact h2.1
        · have h2 := this.2
          simp at h2
          exact h2.2
      have hne : p.accounts ≠ [] := by
        intro h
        exact hc1 (by simp [list_accounts_counts, hlen'.mpr h])
      split at hfail
      case isTrue hc3 =>
        have hr : r = "no_active_slots" := by
          have := congrArg (fun z => z.1.2) hfail
          simpa using this.symm
        subst hr
        have hnone : ∀ a ∈ (reset_daily_where_needed today p).accounts,
            ¬(a.disabled = false ∧ a.daily_generations < DAILY_LIMIT ∧
              a.active_generations < CONCURRENCY_LIMIT) := by
          intro a ha
          have hnil := List.length_eq_zero.mp hc3
          have := List.filter_eq_nil_iff.mp hnil a ha
          rintro ⟨hdis, hdl, hcl⟩
          exact this (by simp [eligibleAcc, hdis, hdl, hcl])
        refine ⟨iff_of_false (by decide) (fun h => hne h),
                iff_of_false (by decide) ?_,
                iff_of_true rfl ⟨hex, Or.inl hnone⟩⟩
        · rintro ⟨-, hall⟩
          obtain ⟨a, ha, hdis, hdl⟩ := hex
          rcases hall a ha with h | h
          · rw [hdis] at h; exact Bool.false_ne_true h
          · exact h hdl
      case isFalse hc3 =>
        split at hfail
        case _ p2 heq =>
          have hr : r = "no_active_slots" := by
            have := congrArg (fun z => z.1.2) hfail
            simpa using this.symm
          subst hr
          refine ⟨iff_of_false (by decide) (fun h => hne h),
                  iff_of_false (by decide) ?_,
                  iff_of_true rfl ⟨hex, Or.inr (by rw [heq])⟩⟩
          · rintro ⟨-, hall⟩
            obtain ⟨a, ha, hdis, hdl⟩ := hex
            rcases hall a ha with h | h
            · rw [hdis] at h; exact Bool.false_ne_true h
            · exact h hdl
        case _ a p2 heq =>
          exfalso
          have := congrArg (fun z => z.1.1) hfail
          simp at this

/-- C6 counterexample to the claim as stated: a pool holding one
disabled account whose daily counter is under the cap fails with
`daily_limit_all`, although an account under its daily cap exists — the
stated characterization ("daily_limit_all exactly when no account is
under its daily cap") does not hold on the code, which only counts
non-disabled accounts. -/
theorem pick_failure_disabled_account_counterexample :
    (pick_account_for_generation "2026-10-12" "2026-10-12T00:00:00"
        (⟨[⟨1, [], none, 0, 0, none, none, true⟩], 2⟩ : Pool) (fun q => q)).1 =
      (none, some "daily_limit_all") ∧
    ∃ a ∈ (⟨[⟨1, [], none, 0, 0, none, none, true⟩], 2⟩ : Pool).accounts,
      a.daily_generations < DAILY_LIMIT := by
  constructor
  · decide
  · exact ⟨⟨1, [], none, 0, 0, none, none, true⟩, by decide, by decide⟩

/-- Witness for C6 (amended) at the disabled-account pool: the
characterization applies and classifies the failure as daily_limit_all. -/
theorem pick_failure_reason_characterization_witness :
    ("daily_limit_all" = "daily_limit_all" ↔
      (⟨[⟨1, [], none, 0, 0, none, none, true⟩], 2⟩ : Pool).accounts ≠ [] ∧
      ∀ a ∈ (reset_daily_where_needed "2026-10-12"
          (⟨[⟨1, [], none, 0, 0, none, none, true⟩], 2⟩ : Pool)).accounts,
        a.disabled = true ∨ ¬a.daily_generations < DAILY_LIMIT) := by
  have h := pick_failure_reason_characterization "2026-10-12" "2026-10-12T00:00:00"
    (⟨[⟨1, [], none, 0, 0, none, none, true⟩], 2⟩ : Pool) (fun q => q)
    "daily_limit_all" (⟨[⟨1, [], none, 0, 0, none, none, true⟩], 2⟩ : Pool)
    (by decide)
  exact h.2.1

/-- C4: when two credential blobs have identical canonical cookie
forms, a successful add_account of the first stores exactly one more
account, and add_account of the second (with a successful upstream
probe) always raises DuplicateAccountError and leaves the stored
accounts unchanged. -/
theorem add_account_duplicate_rejected
    (env : AddEnv) (p p1 : Pool) (b1 b2 : Blob) (i1 : Nat) (t2 : String)
    (hc : canonicalize_cookies b1 = canonicalize_cookies b2)
    (hv2 : env.validate b2 = .ok t2)
    (h1 : add_account env p b1 = (.ok i1, p1)) :
    p1.accounts.length = p.accounts.length + 1 ∧
    ∃ msg, add_account env p1 b2 = (.error (.duplicateAccount msg), p1) := by
  simp only [add_account] at h1
  split at h1
  · simp at h1
  case _ t1 hv1 =>
    split at h1
    · simp at h1
    case _ hk1 =>
      split at h1
      · simp at h1
      case _ hany1 =>
        have h1b : (add_account_row b1
            (match claimKey (env.payload t1) with
             | some k => some k
             | none => some ("cookiehash:" ++ env.hashCanon (canonicalize_cookies b1))) p).2 = p1 :=
          congrArg Prod.snd h1
        constructor
        · rw [← h1b]
          simp [add_account_row]
        · have hany : (p1.accounts.any (fun a =>
              decide (canonicalize_cookies a.cookies_json = canonicalize_cookies b2))) = true := by
            rw [← h1b]
            simp [add_account_row, hc]
          by_cases hd : (match (match claimKey (env.payload t2) with
              | some k => some k
              | none => some ("cookiehash:" ++ env.hashCanon (canonicalize_cookies b2))) with
            | some k => (get_account_id_by_key p1 k).isSome
            | none => false) = true
          · refine ⟨"Account already exists in the database", ?_⟩
            simp only [add_account, hv2]
            rw [if_pos hd]
          · have hd' : (match (match claimKey (env.payload t2) with
                | some k => some k
                | none => some ("cookiehash:" ++ env.hashCanon (canonicalize_cookies b2))) with
              | some k => (get_account_id_by_key p1 k).isSome
              | none => false) = false := by
              exact Bool.not_eq_true _ |>.mp hd
            refine ⟨"Cookies already present in the database", ?_⟩
            simp only [add_account, hv2, hd', hany]
            rfl

theorem draftsPhase_calls_no_create (st : PollSt) (lk : Option ProgressPayload)
    (taskId : String) (drafts : DraftsFetch) (v2 : V2Fetch) :
    UpCall.create ∉ (draftsPhase st lk taskId drafts v2).1 := by
  unfold draftsPhase
  repeat' split
  all_goals simp

theorem pollStep_calls_no_create (cfg : PollCfg) (st : PollSt) (c : CycleInput) :
    UpCall.create ∉ (pollStep cfg st c).1 := by
  unfold pollStep
  split
  · simp
  · split
    · simp
    · exact draftsPhase_calls_no_create _ _ _ _ _

theorem pollRun_calls_no_create (cfg : PollCfg) :
    ∀ (cycles : List CycleInput) (st : PollSt), UpCall.create ∉ (pollRun cfg st cycles).2.1 := by
  intro cycles
  induction cycles with
  | nil => intro st; simp [pollRun]
  | cons c rest ih =>
    intro st
    have hstep := pollStep_calls_no_create cfg st c
    simp only [pollRun]
    rcases hps : pollStep cfg st c with ⟨calls, out⟩
    rw [hps] at hstep
    cases out with
    | terminal evs => simpa using hstep
    | raised evs m => simpa using hstep
    | next evs st' =>
      simp only []
      intro hmem
      rcases List.mem_append.mp hmem with h | h
      · exact hstep h
      · exact ih st' h

theorem resume_generation_no_create (tid : String) (aid : Int) (tsec : Int)
    (renv : ResumeEnv) :
    UpCall.create ∉ resumeCalls (resume_generation tid aid tsec renv) := by
  unfold resume_generation
  split
  · simp [resumeCalls]
  · split
    · simp [resumeCalls]
    · split
      · simp [resumeCalls]
      · split
        · simp [resumeCalls]
        · have hpoll := pollRun_calls_no_create ⟨tid, tsec⟩ renv.cycles ⟨none, none⟩
          dsimp only
          split <;>
          · simp only [resumeCalls]
            intro hmem
            rcases List.mem_cons.mp hmem with h | h
            · exact UpCall.noConfusion h
            · exact hpoll h

/-- C3 (amended): on start, every job found running whose task_id and
account_id are truthy (non-null AND non-empty / nonzero) is started on
the protocol client's resume path — a path that never issues the
upstream creation call — and every other running job is reset to
queued with task_id, account_id and progress cleared and last_event
"requeued", which comes with a wake signal (notify_new_job). -/
theorem recover_running_jobs_characterization
    (table : List Job) (j : Job) (hmem : j ∈ table) (hrun : j.status = "running") :
    (truthyS j.task_id = true → truthyI j.account_id = true →
      recoverJob j = .resume j.id (j.task_id.getD "") (j.account_id.getD 0) ∧
      RecAction.resume j.id (j.task_id.getD "") (j.account_id.getD 0) ∈
        recover_running_jobs table ∧
      ∀ (tsec : Int) (renv : ResumeEnv),
        UpCall.create ∉ resumeCalls
          (resume_generation (j.task_id.getD "") (j.account_id.getD 0) tsec renv)) ∧
    (¬(truthyS j.task_id = true ∧ truthyI j.account_id = true) →
      recoverJob j = .requeue ⟨j.id, "queued", none, none, none, some "requeued"⟩ ∧
      RecAction.requeue ⟨j.id, "queued", none, none, none, some "requeued"⟩ ∈
        recover_running_jobs table) := by
  have hfilt : j ∈ table.filter (fun j => j.status = "running") :=
    List.mem_filter.mpr ⟨hmem, by simp [hrun]⟩
  constructor
  · intro ht ha
    have hdec : recoverJob j = .resume j.id (j.task_id.getD "") (j.account_id.getD 0) := by
      unfold recoverJob
      rw [if_pos (by rw [ht, ha]; rfl)]
    refine ⟨hdec, ?_, ?_⟩
    · have := List.mem_map_of_mem recoverJob hfilt
      rw [hdec] at this
      exact this
    · intro tsec renv
      exact resume_generation_no_create _ _ tsec renv
  · intro hnot
    have hcond : (truthyS j.task_id && truthyI j.account_id) = false := by
      by_cases h1 : truthyS j.task_id = true
      · by_cases h2 : truthyI j.account_id = true
        · exact absurd ⟨h1, h2⟩ hnot
        · simp only [Bool.not_eq_true] at h2
          simp [h2]
      · simp only [Bool.not_eq_true] at h1
        simp [h1]
    have hdec : recoverJob j = .requeue ⟨j.id, "queued", none, none, none, some "requeued"⟩ := by
      unfold recoverJob
      rw [hcond]
      rfl
    refine ⟨hdec, ?_⟩
    have := List.mem_map_of_mem recoverJob hfilt
    rw [hdec] at this
    exact this

/-- C3 counterexample to the claim as stated: a running job whose
task_id is the non-null empty string and whose account_id is non-null
is NOT resumed — Python truthiness treats "" as missing — but reset to
queued instead. -/
theorem recover_non_null_empty_task_counterexample :
    (⟨7, "running", some "", some 1, none, none⟩ : Job).task_id ≠ none ∧
    (⟨7, "running", some "", some 1, none, none⟩ : Job).account_id ≠ none ∧
    recoverJob ⟨7, "running", some "", some 1, none, none⟩ =
      .requeue ⟨7, "queued", none, none, none, some "requeued"⟩ := by
  decide

/-- Witness for C3 (amended) on a two-job table: the resumable job is
dispatched to the resume path and the incomplete one is requeued. -/
theorem recover_running_jobs_characterization_witness :
    (recoverJob ⟨1, "running", some "T1", some 2, none, none⟩ =
      .resume 1 "T1" 2 ∧
     RecAction.resume 1 "T1" 2 ∈ recover_running_jobs
       [⟨1, "running", some "T1", some 2, none, none⟩, ⟨7, "running", none, none, none, none⟩] ∧
     ∀ (tsec : Int) (renv : ResumeEnv),
       UpCall.create ∉ resumeCalls (resume_generation "T1" 2 tsec renv)) ∧
    (recoverJob ⟨7, "running", none, none, none, none⟩ =
      .requeue ⟨7, "queued", none, none, none, some "requeued"⟩ ∧
     RecAction.requeue ⟨7, "queued", none, none, none, some "requeued"⟩ ∈ recover_running_jobs
       [⟨1, "running", some "T1", some 2, none, none⟩, ⟨7, "running", none, none, none, none⟩]) := by
  constructor
  · exact (recover_running_jobs_characterization
      [⟨1, "running", some "T1", some 2, none, none⟩, ⟨7, "running", none, none, none, none⟩]
      ⟨1, "running", some "T1", some 2, none, none⟩ (by decide) rfl).1 (by decide) (by decide)
  · exact (recover_running_jobs_characterization
      [⟨1, "running", some "T1", some 2, none, none⟩, ⟨7, "running", none, none, none, none⟩]
      ⟨7, "running", none, none, none, none⟩ (by decide) rfl).2 (by decide)

/-- C9 (amended): an authenticated HTTP call is issued at most twice;
it is issued a second time exactly when the first response was 401 AND
the forced token refresh succeeded (a raising refresh is swallowed and
the unauthorized response surfaced without retry); any non-401 response
is never retried; post_json behaves identically to get_json. -/
theorem http_unauthorized_retry_characterization (e : HttpCallEnv) :
    (get_json e).2 ≤ 2 ∧
    ((get_json e).2 = 2 ↔ e.first_status = 401 ∧ refreshOk e.refresh = true) ∧
    (e.first_status ≠ 401 → get_json e = (e.first_status, 1)) ∧
    post_json e = get_json e := by
  unfold get_json post_json requestWithAuthRetry
  by_cases h : e.first_status = 401
  · rw [if_pos h]
    cases hr : e.refresh with
    | error m =>
      refine ⟨by simp, ?_, fun hne => absurd h hne, rfl⟩
      simp [refreshOk]
    | ok u =>
      cases ht : e.retry with
      | error m => exact ⟨by simp, by simp [h, refreshOk], fun hne => absurd h hne, rfl⟩
      | ok s2 => exact ⟨by simp, by simp [h, refreshOk], fun hne => absurd h hne, rfl⟩
  · rw [if_neg h]
    refine ⟨by simp, ?_, fun _ => rfl, rfl⟩
    constructor
    · intro h1
      simp at h1
    · rintro ⟨h401, -⟩
      exact absurd h401 h

/-- C9 counterexample to the claim as stated: a call whose first
response is 401 but whose forced refresh raises is NOT retried — the
request is issued exactly once, not twice. -/
theorem http_401_refresh_failure_no_retry_counterexample :
    (get_json ⟨401, .error "auth_session_failed: status=500", .ok 200⟩).1 = 401 ∧
    (get_json ⟨401, .error "auth_session_failed: status=500", .ok 200⟩).2 = 1 := by
  decide

/-- Witness for C9 (amended): with a succeeding refresh a 401 call is
issued exactly twice. -/
theorem http_unauthorized_retry_characterization_witness :
    (get_json ⟨401, .ok (), .ok 200⟩).2 = 2 :=
  (http_unauthorized_retry_characterization ⟨401, .ok (), .ok 200⟩).2.1.mpr ⟨rfl, rfl⟩

/-- C8 (amended): whenever the caller-supplied timeout is positive and
the elapsed time at the start of a poll cycle exceeds it, that cycle
emits exactly the terminal timeout error and the sequence ends; a
non-positive timeout disables the check entirely. -/
theorem poll_timeout_terminates
    (cfg : PollCfg) (st : PollSt) (c : CycleInput)
    (hpos : 0 < cfg.timeout_sec) (hex : cfg.timeout_sec < c.elapsed) :
    pollStep cfg st c = ([], .terminal [.error "timeout" (some "Generation timed out")]) := by
  unfold pollStep
  rw [if_pos ⟨hpos, hex⟩]

/-- C8 counterexample to the claim as stated: with a caller-supplied
timeout of 0 the elapsed time exceeds the timeout, yet the cycle does
not emit the timeout error — it polls on (the `timeout_sec > 0` guard
disables the check). -/
theorem poll_timeout_zero_ignored_counterexample :
    ((⟨10, none, .ok [], .fail⟩ : CycleInput).elapsed > (⟨"T", 0⟩ : PollCfg).timeout_sec) ∧
    pollStep ⟨"T", 0⟩ ⟨none, none⟩ ⟨10, none, .ok [], .fail⟩ =
      ([.pending, .drafts], .next [.progress .fallback] ⟨none, none⟩) := by
  decide

/-- Witness for C8 (amended): a cycle starting after 901 elapsed
seconds of a 900-second timeout is terminal with the timeout error. -/
theorem poll_timeout_terminates_witness :
    pollStep ⟨"T", 900⟩ ⟨none, none⟩ ⟨901, none, .ok [], .fail⟩ =
      ([], .terminal [.error "timeout" (some "Generation timed out")]) :=
  poll_timeout_terminates ⟨"T", 900⟩ ⟨none, none⟩ ⟨901, none, .ok [], .fail⟩
    (by decide) (by decide)

/-- C2 (code-bug evidence): with one available account and valid
arguments, the fresh run reserves the account (its active counter
becomes 1), yet closing the generator right after the first (account)
event runs no mark_generation_finished — the account/auth/uploaded/
queued yields sit outside the polling try/finally — and a create POST
that raises propagates without mark_generation_finished, because that
call is outside every try block; a normal full run releases exactly
once. -/
theorem generate_video_release_gap :
    gvPoolAfterPick (generate_video ⟨some "hi", none, false, 10, some "large", 3, 900⟩
        ⟨true, .ok (), .ok200 none, .ok200 (some "T") none, []⟩ "2026-10-12" "T0"
        ⟨[⟨1, [], none, 0, 0, none, none, false⟩], 2⟩) =
      ⟨[⟨1, [], none, 1, 0, some "T0", some "2026-10-12", false⟩], 2⟩ ∧
    gvFinishedCount 1 (generate_video ⟨some "hi", none, false, 10, some "large", 3, 900⟩
        ⟨true, .ok (), .ok200 none, .ok200 (some "T") none, []⟩ "2026-10-12" "T0"
        ⟨[⟨1, [], none, 0, 0, none, none, false⟩], 2⟩) (some 1) = 0 ∧
    gvPoolAfterPick (generate_video ⟨some "hi", none, false, 10, some "large", 3, 900⟩
        ⟨true, .ok (), .ok200 none, .exn "ClientConnectionError", []⟩ "2026-10-12" "T0"
        ⟨[⟨1, [], none, 0, 0, none, none, false⟩], 2⟩) =
      ⟨[⟨1, [], none, 1, 0, some "T0", some "2026-10-12", false⟩], 2⟩ ∧
    gvFinishedCount 1 (generate_video ⟨some "hi", none, false, 10, some "large", 3, 900⟩
        ⟨true, .ok (), .ok200 none, .exn "ClientConnectionError", []⟩ "2026-10-12" "T0"
        ⟨[⟨1, [], none, 0, 0, none, none, false⟩], 2⟩) none = 0 ∧
    gvFinishedCount 1 (generate_video ⟨some "hi", none, false, 10, some "large", 3, 900⟩
        ⟨true, .ok (), .ok200 none, .ok200 (some "T") none, []⟩ "2026-10-12" "T0"
        ⟨[⟨1, [], none, 0, 0, none, none, false⟩], 2⟩) none = 1 := by
  decide

/-- C7 counterexample to the claim as stated: a fresh (non-resumed)
generate_video run that reserves an account DOES emit the account
event (it is how the queue learns which credential to persist for
crash recovery). -/
theorem account_event_on_fresh_run_counterexample :
    (gvEvents (generate_video ⟨some "hi", none, false, 10, some "large", 3, 900⟩
        ⟨true, .ok (), .ok200 none, .ok200 (some "T") none, []⟩ "2026-10-12" "T0"
        ⟨[⟨1, [], none, 0, 0, none, none, false⟩], 2⟩)).any isAccountEvent = true := by
  decide


theorem progressEvents_append (l1 l2 : List Event) :
    progressEvents (l1 ++ l2) = progressEvents l1 ++ progressEvents l2 := by
  simp [progressEvents]

theorem mem_draftDevs {st : PollSt} {my : Draft} {a : Event} (h : a ∈ draftDevs st my) :
    a = Event.draft_found (my.id.getD "") := by
  unfold draftDevs at h
  split at h
  · simpa using h
  · simp at h

theorem progressEvents_draftDevs (st : PollSt) (my : Draft) :
    progressEvents (draftDevs st my) = [] := by
  unfold draftDevs
  split <;> simp [progressEvents]

theorem draftsPhase_progress (st : PollSt) (lk : Option ProgressPayload)
    (taskId : String) (drafts : DraftsFetch) (v2 : V2Fetch) :
    progressEvents (stepEvents (draftsPhase st lk taskId drafts v2).2) = [] ∧
    (∀ st', stepNextSt (draftsPhase st lk taskId drafts v2).2 = some st' →
      st'.last_progress_key = lk) := by
  unfold draftsPhase
  cases drafts with
  | exn m => simp [stepEvents, stepNextSt, progressEvents]
  | status401 => simp [stepEvents, stepNextSt, progressEvents]
  | errStatus code message => simp [stepEvents, stepNextSt, progressEvents]
  | ok items =>
    cases hfd : findDraft taskId items with
    | none =>
      constructor
      · simp [hfd, stepEvents, progressEvents]
      · intro st' hst'
        simp only [hfd, stepNextSt] at hst'
        rw [← Option.some.inj hst']
    | some my =>
      by_cases he : draftHasError my = true
      · constructor
        · simp [hfd, he, stepEvents, progressEvents_append, progressEvents_draftDevs,
                progressEvents, draftErrorEvent]
          intro a ha
          rw [mem_draftDevs ha]
        · intro st' hst'
          simp [hfd, he, stepNextSt] at hst'
      · by_cases hs : truthyS my.url = true ∧ my.encodings = true
        · by_cases hg : truthyS (draftGid st my) = true
          · cases v2 with
            | ok d =>
              constructor
              · simp [hfd, he, hs, hg, stepEvents, progressEvents_append,
                      progressEvents_draftDevs, progressEvents, finishedEventOfDetail]
                intro a ha
                rw [mem_draftDevs ha]
              · intro st' hst'
                simp [hfd, he, hs, hg, stepNextSt] at hst'
            | fail =>
              constructor
              · simp [hfd, he, hs, hg, stepEvents, progressEvents_append,
                      progressEvents_draftDevs, progressEvents, finishedEventOfDraft]
                intro a ha
                rw [mem_draftDevs ha]
              · intro st' hst'
                simp [hfd, he, hs, hg, stepNextSt] at hst'
            | exn m =>
              constructor
              · simp [hfd, he, hs, hg, stepEvents, progressEvents_draftDevs]
              · intro st' hst'
                simp [hfd, he, hs, hg, stepNextSt] at hst'
          · constructor
            · simp [hfd, he, hs, hg, stepEvents, progressEvents_append,
                    progressEvents_draftDevs, progressEvents, finishedEventOfDraft]
              intro a ha
              rw [mem_draftDevs ha]
            · intro st' hst'
              simp [hfd, he, hs, hg, stepNextSt] at hst'
        · constructor
          · simp [hfd, he, hs, stepEvents, progressEvents_draftDevs]
          · intro st' hst'
            simp [hfd, he, hs, stepNextSt] at hst'
            subst hst'
            rfl

theorem pollStep_progress_decomp (cfg : PollCfg) (st : PollSt) (c : CycleInput)
    (hto : ¬(cfg.timeout_sec > 0 ∧ c.elapsed > cfg.timeout_sec))
    (pevs : List Event) (lk : Option ProgressPayload)
    (hpf : pendingPhase st c.pending = .ok (pevs, lk)) :
    progressEvents (stepEvents (pollStep cfg st c).2) = progressEvents pevs ∧
    (∀ st', stepNextSt (pollStep cfg st c).2 = some st' → st'.last_progress_key = lk) := by
  unfold pollStep
  rw [if_neg hto, hpf]
  dsimp only
  obtain ⟨hd1, hd2⟩ := draftsPhase_progress st lk cfg.task_id c.drafts c.v2
  cases hout : (draftsPhase st lk cfg.task_id c.drafts c.v2).2 with
  | terminal evs =>
    rw [hout] at hd1
    constructor
    · simp only [prependEvents, stepEvents, progressEvents_append]
      simp only [stepEvents] at hd1
      rw [hd1, List.append_nil]
    · intro st' hst'
      simp only [prependEvents, stepNextSt] at hst'
      exact Option.noConfusion hst'
  | raised evs m =>
    rw [hout] at hd1
    constructor
    · simp only [prependEvents, stepEvents, progressEvents_append]
      simp only [stepEvents] at hd1
      rw [hd1, List.append_nil]
    · intro st' hst'
      simp only [prependEvents, stepNextSt] at hst'
      exact Option.noConfusion hst'
  | next evs st2 =>
    have hd1' := hd1
    rw [hout] at hd1'
    have hd2' := hd2 st2 (by rw [hout]; rfl)
    constructor
    · simp only [prependEvents, stepEvents, progressEvents_append]
      simp only [stepEvents] at hd1'
      rw [hd1', List.append_nil]
    · intro st' hst'
      simp only [prependEvents, stepNextSt] at hst'
      rw [← Option.some.inj hst']
      exact hd2'

/-- C5 (amended): the fingerprint deduplication applies to cycles whose
pending feed carries the task item and reports no failure — a payload
equal to the last recorded fingerprint is suppressed, a differing
payload is emitted exactly once and recorded; a cycle with no pending
item instead emits one bare queued progress event precisely while no
fingerprint exists yet, WITHOUT recording one, so consecutive
no-pending cycles repeat the identical event. -/
theorem poll_progress_fingerprint_dedup
    (cfg : PollCfg) (st : PollSt) (c : CycleInput)
    (hto : ¬(cfg.timeout_sec > 0 ∧ c.elapsed > cfg.timeout_sec)) :
    (∀ it, c.pending = some it → pendingFails it = false →
      (st.last_progress_key = some (pendingPayload it) →
        progressEvents (stepEvents (pollStep cfg st c).2) = [] ∧
        ∀ st', stepNextSt (pollStep cfg st c).2 = some st' →
          st'.last_progress_key = st.last_progress_key) ∧
      (st.last_progress_key ≠ some (pendingPayload it) →
        progressEvents (stepEvents (pollStep cfg st c).2) = [.progress (pendingPayload it)] ∧
        ∀ st', stepNextSt (pollStep cfg st c).2 = some st' →
          st'.last_progress_key = some (pendingPayload it))) ∧
    (c.pending = none →
      progressEvents (stepEvents (pollStep cfg st c).2) =
        (if st.last_progress_key = none then [.progress .fallback] else []) ∧
      ∀ st', stepNextSt (pollStep cfg st c).2 = some st' →
        st'.last_progress_key = st.last_progress_key) := by
  constructor
  · intro it hp hnf
    constructor
    · intro heq
      have hpf : pendingPhase st c.pending = .ok ([], st.last_progress_key) := by
        simp [pendingPhase, hp, hnf, heq]
      obtain ⟨h1, h2⟩ := pollStep_progress_decomp cfg st c hto _ _ hpf
      exact ⟨by simpa [progressEvents] using h1, h2⟩
    · intro hne
      have hpf : pendingPhase st c.pending =
          .ok ([.progress (pendingPayload it)], some (pendingPayload it)) := by
        simp [pendingPhase, hp, hnf, hne]
      obtain ⟨h1, h2⟩ := pollStep_progress_decomp cfg st c hto _ _ hpf
      exact ⟨by simpa [progressEvents] using h1, h2⟩
  · intro hp
    by_cases hl : st.last_progress_key = none
    · have hpf : pendingPhase st c.pending = .ok ([.progress .fallback], st.last_progress_key) := by
        simp [pendingPhase, hp, hl]
      obtain ⟨h1, h2⟩ := pollStep_progress_decomp cfg st c hto _ _ hpf
      rw [if_pos hl]
      exact ⟨by simpa [progressEvents] using h1, h2⟩
    · have hpf : pendingPhase st c.pending = .ok ([], st.last_progress_key) := by
        simp [pendingPhase, hp, hl]
      obtain ⟨h1, h2⟩ := pollStep_progress_decomp cfg st c hto _ _ hpf
      rw [if_neg hl]
      exact ⟨by simpa [progressEvents] using h1, h2⟩

/-- C5 counterexample to the claim as stated: two consecutive cycles
whose pending feed has no entry for the task produce the identical bare
queued progress payload, and BOTH are emitted — the fallback event
bypasses the fingerprint, so the duplicate is not suppressed. -/
theorem poll_duplicate_fallback_progress_counterexample :
    (pollRun ⟨"T", 900⟩ ⟨none, none⟩
      [⟨1, none, .ok [], .fail⟩, ⟨2, none, .ok [], .fail⟩]).1 =
    [.progress .fallback, .progress .fallback] := by
  decide

/-- Witness for C5 (amended): a cycle whose pending payload equals the
recorded fingerprint emits no progress event. -/
theorem poll_progress_fingerprint_dedup_witness :
    progressEvents (stepEvents (pollStep ⟨"T", 900⟩
      ⟨none, some (.queuedP (some 3) none none)⟩
      ⟨5, some ⟨some "queued", none, some 3, none, none, none⟩, .ok [], .fail⟩).2) = [] :=
  ((poll_progress_fingerprint_dedup ⟨"T", 900⟩
      ⟨none, some (.queuedP (some 3) none none)⟩
      ⟨5, some ⟨some "queued", none, some 3, none, none, none⟩, .ok [], .fail⟩
      (by decide)).1
    ⟨some "queued", none, some 3, none, none, none⟩ rfl (by decide)).1 (by decide) |>.1

/-- C7 (amended): the account event is emitted on every resumed run
that finds its stored credential (as the first event), AND also on
every fresh generate_video run exactly when an account was reserved —
it is absent from a fresh run only when no account was reserved. -/
theorem account_event_emission_characterization
    (a : GenArgs) (env : GenEnv) (today now : String) (p : Pool) (pres : Pool) (t : GTree)
    (hpool : env.poolOk = true)
    (hrun : generate_video a env today now p = .run pres t) :
    ((t.events.any isAccountEvent = true) ↔
      ((pick_account_for_generation today now p (fun q => q)).1.1).isSome = true) ∧
    (∀ (tid : String) (aid : Int) (tsec : Int) (renv : ResumeEnv),
      tid ≠ "" → 0 < aid → truthyS renv.creds_cookies = true →
      ∃ rest, resumeEvents (resume_generation tid aid tsec renv) = .account aid :: rest) := by
  constructor
  · simp only [generate_video] at hrun
    split at hrun
    · exact absurd hrun (by simp)
    · split at hrun
      · exact absurd hrun (by simp)
      · split at hrun
        · exact absurd hrun (by simp)
        · split at hrun
          · exact absurd hrun (by simp)
          · split at hrun
            case isTrue hnp =>
              rw [hpool] at hnp
              simp at hnp
            case isFalse hnp =>
              split at hrun
              case _ err p1 heq =>
                rw [heq]
                split at hrun <;>
                · injection hrun with h1 h2
                  rw [← h2]
                  simp [GTree.events, isAccountEvent]
              case _ acc snd p1 heq =>
                rw [heq]
                injection hrun with h1 h2
                rw [← h2]
                simp [GTree.events, isAccountEvent]
  · intro tid aid tsec renv htid haid hcreds
    unfold resume_generation
    rw [if_neg htid]
    rw [if_neg (by omega : ¬(aid ≤ 0))]
    rw [if_neg (by simp [hcreds] : ¬((!truthyS renv.creds_cookies) = true))]
    cases renv.auth with
    | error m => exact ⟨_, rfl⟩
    | ok u =>
      dsimp only
      split
      · exact ⟨_, rfl⟩
      · exact ⟨_, rfl⟩

/-- Witness for C7 (amended): the fresh one-account run reserves an
account, so its event sequence contains the account event. -/
theorem account_event_emission_characterization_witness :
    ((GTree.yld (.account 1)
        (genAfterAccount ⟨some "hi", none, false, 10, some "large", 3, 900⟩
          ⟨true, .ok (), .ok200 none, .ok200 (some "T") none, []⟩ 1)).events.any
      isAccountEvent = true) ↔
    ((pick_account_for_generation "2026-10-12" "T0"
        (⟨[⟨1, [], none, 0, 0, none, none, false⟩], 2⟩ : Pool) (fun q => q)).1.1).isSome = true :=
  (account_event_emission_characterization
    ⟨some "hi", none, false, 10, some "large", 3, 900⟩
    ⟨true, .ok (), .ok200 none, .ok200 (some "T") none, []⟩ "2026-10-12" "T0"
    (⟨[⟨1, [], none, 0, 0, none, none, false⟩], 2⟩ : Pool)
    (⟨[⟨1, [], none, 1, 0, some "T0", some "2026-10-12", false⟩], 2⟩ : Pool)
    (GTree.yld (.account 1)
      (genAfterAccount ⟨some "hi", none, false, 10, some "large", 3, 900⟩
        ⟨true, .ok (), .ok200 none, .ok200 (some "T") none, []⟩ 1))
    rfl (by decide)).1

/-- C10: generate_video validates its arguments before touching the
account pool: an empty or non-string prompt, a non-positive frame
count, a size given but (case-normalized) outside small/large, or —
when no input image is given — an orientation given but outside
portrait/landscape makes the first iteration raise ValueError, with the
pool returned unchanged and no account counter modified. -/
theorem generate_video_validates_before_reserving
    (a : GenArgs) (env : GenEnv) (today now : String) (p : Pool)
    (h : (match a.prompt with | some s => s = "" | none => True) ∨
         a.frames ≤ 0 ∨
         (∃ s, a.size = some s ∧ lowerStr s ≠ "small" ∧ lowerStr s ≠ "large") ∨
         (a.image = false ∧
           ∃ o, a.orientation = some o ∧ o ≠ "portrait" ∧ o ≠ "landscape")) :
    ∃ msg, generate_video a env today now p = .valueError msg p := by
  simp only [generate_video]
  split
  · exact ⟨_, rfl⟩
  · split
    · exact ⟨_, rfl⟩
    · split
      · exact ⟨_, rfl⟩
      · split
        · exact ⟨_, rfl⟩
        · exfalso
          rename_i h1 h2 h3 h4
          rcases h with hp | hf | hs | ho
          · apply h1
            cases hap : a.prompt with
            | none => simp
            | some s =>
              rw [hap] at hp
              simp only [] at hp
              simp [hp]
          · exact h3 hf
          · apply h4
            obtain ⟨s, hsz, hns, hnl⟩ := hs
            rw [hsz]
            simp [hns, hnl]
          · apply h2
            obtain ⟨himg, o, hor, hnp, hnl⟩ := ho
            refine ⟨himg, ?_⟩
            rw [hor]
            simp [hnp, hnl]

/-- Witness for C10: a call with frames = 0 raises ValueError and the
pool comes back unchanged. -/
theorem generate_video_validates_before_reserving_witness :
    ∃ msg, generate_video ⟨some "hi", none, false, 0, none, 3, 900⟩
        ⟨true, .ok (), .ok200 none, .ok200 (some "T") none, []⟩ "2026-10-12" "T0"
        (⟨[⟨1, [], none, 0, 0, none, none, false⟩], 2⟩ : Pool) =
      .valueError msg (⟨[⟨1, [], none, 0, 0, none, none, false⟩], 2⟩ : Pool) :=
  generate_video_validates_before_reserving
    ⟨some "hi", none, false, 0, none, 3, 900⟩
    ⟨true, .ok (), .ok200 none, .ok200 (some "T") none, []⟩ "2026-10-12" "T0"
    (⟨[⟨1, [], none, 0, 0, none, none, false⟩], 2⟩ : Pool)
    (Or.inr (Or.inl (by decide)))

/-- Witness for C4: adding the same (empty-cookie-set) blob twice into
an empty store with a constant probe environment stores one account and
then hits DuplicateAccountError with the store unchanged. -/
theorem add_account_duplicate_rejected_witness :
    (⟨[⟨1, [], some "cookiehash:h", 0, 0, none, none, false⟩], 2⟩ : Pool).accounts.length =
      (⟨[], 1⟩ : Pool).accounts.length + 1 ∧
    ∃ msg, add_account ⟨fun _ => .ok "tok", fun _ => ⟨none, none, none, none, none⟩, fun _ => "h"⟩
        (⟨[⟨1, [], some "cookiehash:h", 0, 0, none, none, false⟩], 2⟩ : Pool) [] =
      (.error (.duplicateAccount msg),
       (⟨[⟨1, [], some "cookiehash:h", 0, 0, none, none, false⟩], 2⟩ : Pool)) :=
  add_account_duplicate_rejected
    ⟨fun _ => .ok "tok", fun _ => ⟨none, none, none, none, none⟩, fun _ => "h"⟩
    (⟨[], 1⟩ : Pool)
    (⟨[⟨1, [], some "cookiehash:h", 0, 0, none, none, false⟩], 2⟩ : Pool)
    [] [] 1 "tok" rfl rfl rfl
